import Mathlib

/-!
Verification of the vgi-rpc TypeScript runtime against its specification.

The development shallowly embeds the parts of the source that the verified
properties are about:

* `src/http/token.ts` — the signed state-token codec (pack/unpack),
* `src/types.ts` — the OutputCollector state machine,
* `src/dispatch/stream.ts` — the pipe stream dispatcher's drain discipline
  and per-round batch flush,
* `src/http/dispatch.ts` — the exchange endpoint's token attachment,
* `src/wire/response.ts` — result/error/log batch construction,
* `src/client/pipe.ts` — the client exchange schema lock,
* `src/server.ts` — the serve loop's handling of empty request streams.

Byte strings are modelled as lists of naturals (`Bytes`); machine-integer
reads/writes carry explicit `% 256` / little-endian arithmetic.  The
HMAC-SHA-256 primitive lives in node:crypto, outside this repository; it is
modelled as an explicit function parameter `hmac : Bytes → Bytes → Bytes`
(key → message → mac), with its 32-byte output length taken as a hypothesis
where the code relies on it.  Base64 transport encoding (Node Buffer
`toString("base64")` / `Buffer.from(_, "base64")`, also external) is the
identity on the byte level and is elided: tokens are modelled as the raw
bytes they encode.
-/

namespace VgiRpc

/-- Byte strings: each element is one byte value. -/
abbrev Bytes := List Nat

/-- Little-endian 32-bit encoding, as produced by Buffer.writeUInt32LE. -/
def u32LE (n : Nat) : Bytes :=
  [n % 256, n / 256 % 256, n / 65536 % 256, n / 16777216 % 256]

/-- Little-endian 64-bit encoding, as produced by Buffer.writeBigUInt64LE. -/
def u64LE (n : Nat) : Bytes :=
  [n % 256, n / 256 % 256, n / 65536 % 256, n / 16777216 % 256,
   n / 4294967296 % 256, n / 1099511627776 % 256,
   n / 281474976710656 % 256, n / 72057594037927936 % 256]

/-- Value of a little-endian byte list. -/
def leNat : Bytes → Nat
  | [] => 0
  | b :: bs => b + 256 * leNat bs

/-- Buffer.readUInt32LE at a byte offset. -/
def readU32LE (l : Bytes) (off : Nat) : Nat := leNat ((l.drop off).take 4)

/-- Buffer.readBigUInt64LE at a byte offset. -/
def readU64LE (l : Bytes) (off : Nat) : Nat := leNat ((l.drop off).take 8)

/-- Buffer.readUInt8 at a byte offset. -/
def readU8 (l : Bytes) (off : Nat) : Nat := (l.drop off).headD 0

@[simp] theorem length_u32LE (n : Nat) : (u32LE n).length = 4 := rfl

@[simp] theorem length_u64LE (n : Nat) : (u64LE n).length = 8 := rfl

theorem leNat_u32LE {n : Nat} (h : n < 4294967296) : leNat (u32LE n) = n := by
  simp only [u32LE, leNat]
  omega

theorem leNat_u64LE {n : Nat} (h : n < 18446744073709551616) :
    leNat (u64LE n) = n := by
  simp only [u64LE, leNat]
  omega

/-! ## State-token codec (src/http/token.ts) -/

/-- Token format version byte (TOKEN_VERSION in token.ts). -/
def TOKEN_VERSION : Nat := 2

/-- HMAC-SHA-256 digest size in bytes (HMAC_LEN in token.ts). -/
def HMAC_LEN : Nat := 32

/-- Minimum token length: version + created_at + three length prefixes + mac. -/
def MIN_TOKEN_LEN : Nat := 1 + 8 + 12 + HMAC_LEN

/-- Result of a successful unpack (interface UnpackedToken in token.ts). -/
structure UnpackedToken where
  stateBytes : Bytes
  schemaBytes : Bytes
  inputSchemaBytes : Bytes
  createdAt : Nat
deriving DecidableEq, Repr

/-- Failure cases of unpackStateToken, one per throw site in token.ts
(plus the two runtime throws: node's timingSafeEqual length guard and
Buffer.readUInt32LE bounds guard). -/
inductive TokenError where
  | tooShort
  | macLengthMismatch
  | hmacFailed
  | badVersion (v : Nat)
  | expired
  | truncatedState
  | readrange
  | truncatedSchema
  | truncatedInput
deriving DecidableEq, Repr

/-- Message text of each failure, as thrown by token.ts. -/
def TokenError.message : TokenError → String
  | .tooShort => "State token too short"
  | .macLengthMismatch => "Input buffers must have the same byte length"
  | .hmacFailed => "State token HMAC verification failed"
  | .badVersion v => "Unsupported state token version: " ++ toString v
  | .expired => "State token expired"
  | .truncatedState => "State token truncated (state)"
  | .readrange => "Attempt to access memory outside buffer bounds"
  | .truncatedSchema => "State token truncated (schema)"
  | .truncatedInput => "State token truncated (input schema)"

/-- Signed payload laid out by packStateToken before the trailing mac:
version byte, created_at u64 LE, then three length-prefixed byte strings. -/
def tokenPayload (stateBytes schemaBytes inputSchemaBytes : Bytes)
    (createdAt : Nat) : Bytes :=
  [TOKEN_VERSION] ++ (u64LE createdAt
    ++ (u32LE stateBytes.length ++ (stateBytes
    ++ (u32LE schemaBytes.length ++ (schemaBytes
    ++ (u32LE inputSchemaBytes.length ++ inputSchemaBytes))))))

/-- Binary form of packStateToken (token.ts lines 22-67): the payload followed
by the HMAC of the payload under the signing key.  The base64 step of the
source is the identity at the byte level and is elided. -/
def packStateToken (hmac : Bytes → Bytes → Bytes)
    (stateBytes schemaBytes inputSchemaBytes signingKey : Bytes)
    (createdAt : Nat) : Bytes :=
  let buf := tokenPayload stateBytes schemaBytes inputSchemaBytes createdAt
  buf ++ hmac signingKey buf

/-- Unpack and verify a state token (token.ts lines 80-149), mirroring the
source's check order exactly: length guard, HMAC comparison (node's
timingSafeEqual first rejects unequal digest lengths), version byte,
created_at and TTL, then the three length-prefixed fields with their
truncation guards (Buffer.readUInt32LE itself throws when fewer than four
bytes remain for a length prefix). -/
def unpackStateToken (hmac : Bytes → Bytes → Bytes)
    (token signingKey : Bytes) (tokenTtl : Nat) (now : Nat) :
    Except TokenError UnpackedToken :=
  if token.length < MIN_TOKEN_LEN then .error .tooShort else
  let payload := token.take (token.length - HMAC_LEN)
  let receivedMac := token.drop (token.length - HMAC_LEN)
  let expectedMac := hmac signingKey payload
  if receivedMac.length ≠ expectedMac.length then .error .macLengthMismatch else
  if receivedMac ≠ expectedMac then .error .hmacFailed else
  let version := readU8 payload 0
  if version ≠ TOKEN_VERSION then .error (.badVersion version) else
  let createdAt := readU64LE payload 1
  if tokenTtl > 0 ∧ (now : Int) - (createdAt : Int) > (tokenTtl : Int) then
    .error .expired else
  let stateLen := readU32LE payload 9
  if 13 + stateLen > payload.length then .error .truncatedState else
  let stateBytes := (payload.drop 13).take stateLen
  let o2 := 13 + stateLen
  if o2 + 4 > payload.length then .error .readrange else
  let schemaLen := readU32LE payload o2
  if o2 + 4 + schemaLen > payload.length then .error .truncatedSchema else
  let schemaBytes := (payload.drop (o2 + 4)).take schemaLen
  let o3 := o2 + 4 + schemaLen
  if o3 + 4 > payload.length then .error .readrange else
  let inputSchemaLen := readU32LE payload o3
  if o3 + 4 + inputSchemaLen > payload.length then .error .truncatedInput else
  let inputSchemaBytes := (payload.drop (o3 + 4)).take inputSchemaLen
  .ok ⟨stateBytes, schemaBytes, inputSchemaBytes, createdAt⟩

theorem tokenPayload_length (s so si : Bytes) (c : Nat) :
    (tokenPayload s so si c).length = 21 + s.length + so.length + si.length := by
  simp [tokenPayload]
  omega

theorem tokenPayload_drop_nine (s so si : Bytes) (c : Nat) :
    (tokenPayload s so si c).drop 9 =
      u32LE s.length ++ (s ++ (u32LE so.length ++ (so ++ (u32LE si.length ++ si)))) := by
  unfold tokenPayload
  rw [← List.append_assoc]
  apply List.drop_left'
  simp

theorem tokenPayload_drop_state (s so si : Bytes) (c : Nat) :
    (tokenPayload s so si c).drop 13 =
      s ++ (u32LE so.length ++ (so ++ (u32LE si.length ++ si))) := by
  rw [show (13 : Nat) = 9 + 4 from rfl, ← List.drop_drop, tokenPayload_drop_nine]
  apply List.drop_left'
  simp

theorem tokenPayload_drop_schemaLen (s so si : Bytes) (c : Nat) :
    (tokenPayload s so si c).drop (13 + s.length) =
      u32LE so.length ++ (so ++ (u32LE si.length ++ si)) := by
  rw [← List.drop_drop, tokenPayload_drop_state]
  exact List.drop_left s _

theorem tokenPayload_drop_schema (s so si : Bytes) (c : Nat) :
    (tokenPayload s so si c).drop (13 + s.length + 4) =
      so ++ (u32LE si.length ++ si) := by
  rw [show 13 + s.length + 4 = 13 + s.length + 4 from rfl, ← List.drop_drop,
    tokenPayload_drop_schemaLen]
  apply List.drop_left'
  simp

theorem tokenPayload_drop_inputLen (s so si : Bytes) (c : Nat) :
    (tokenPayload s so si c).drop (13 + s.length + 4 + so.length) =
      u32LE si.length ++ si := by
  rw [show 13 + s.length + 4 + so.length = (13 + s.length + 4) + so.length from rfl,
    ← List.drop_drop, tokenPayload_drop_schema]
  exact List.drop_left so _

theorem tokenPayload_drop_input (s so si : Bytes) (c : Nat) :
    (tokenPayload s so si c).drop (13 + s.length + 4 + so.length + 4) = si := by
  rw [show 13 + s.length + 4 + so.length + 4 = (13 + s.length + 4 + so.length) + 4
      from rfl, ← List.drop_drop, tokenPayload_drop_inputLen]
  apply List.drop_left'
  simp

theorem tokenPayload_readU8 (s so si : Bytes) (c : Nat) :
    readU8 (tokenPayload s so si c) 0 = TOKEN_VERSION := by
  simp [readU8, tokenPayload]

theorem tokenPayload_readU64 (s so si : Bytes) {c : Nat}
    (hc : c < 18446744073709551616) :
    readU64LE (tokenPayload s so si c) 1 = c := by
  have h1 : (tokenPayload s so si c).drop 1 =
      u64LE c ++ (u32LE s.length ++ (s ++ (u32LE so.length ++
        (so ++ (u32LE si.length ++ si))))) := by
    unfold tokenPayload
    apply List.drop_left'
    simp
  rw [readU64LE, h1, List.take_left' (by simp : (u64LE c).length = 8), leNat_u64LE hc]

theorem tokenPayload_readU32_state (s so si : Bytes) (c : Nat)
    (hs : s.length < 4294967296) :
    readU32LE (tokenPayload s so si c) 9 = s.length := by
  rw [readU32LE, tokenPayload_drop_nine, List.take_left' (by simp), leNat_u32LE hs]

theorem tokenPayload_readU32_schema (s so si : Bytes) (c : Nat)
    (hso : so.length < 4294967296) :
    readU32LE (tokenPayload s so si c) (13 + s.length) = so.length := by
  rw [readU32LE, tokenPayload_drop_schemaLen, List.take_left' (by simp),
    leNat_u32LE hso]

theorem tokenPayload_readU32_input (s so si : Bytes) (c : Nat)
    (hsi : si.length < 4294967296) :
    readU32LE (tokenPayload s so si c) (13 + s.length + 4 + so.length) = si.length := by
  rw [readU32LE, tokenPayload_drop_inputLen, List.take_left' (by simp),
    leNat_u32LE hsi]

/-- Evaluation of unpack on a freshly packed token: every structural check
passes and the outcome is decided by the TTL comparison alone. -/
theorem unpack_pack_eval (hmac : Bytes → Bytes → Bytes)
    (s so si key : Bytes) (c ttl now : Nat)
    (hm32 : (hmac key (tokenPayload s so si c)).length = 32)
    (hs : s.length < 4294967296) (hso : so.length < 4294967296)
    (hsi : si.length < 4294967296) (hc : c < 18446744073709551616) :
    unpackStateToken hmac (packStateToken hmac s so si key c) key ttl now =
      if ttl > 0 ∧ (now : Int) - (c : Int) > (ttl : Int) then .error .expired
      else .ok ⟨s, so, si, c⟩ := by
  have hPlen := tokenPayload_length s so si c
  simp only [packStateToken]
  simp only [unpackStateToken]
  rw [if_neg (by simp only [List.length_append, hm32, MIN_TOKEN_LEN, HMAC_LEN]; omega)]
  have htake : (tokenPayload s so si c ++ hmac key (tokenPayload s so si c)).take
      ((tokenPayload s so si c ++ hmac key (tokenPayload s so si c)).length - HMAC_LEN)
      = tokenPayload s so si c := by
    apply List.take_left'
    simp only [List.length_append, hm32, HMAC_LEN]
    omega
  have hdrop : (tokenPayload s so si c ++ hmac key (tokenPayload s so si c)).drop
      ((tokenPayload s so si c ++ hmac key (tokenPayload s so si c)).length - HMAC_LEN)
      = hmac key (tokenPayload s so si c) := by
    apply List.drop_left'
    simp only [List.length_append, hm32, HMAC_LEN]
    omega
  rw [htake, hdrop]
  rw [if_neg (by simp)]
  rw [if_neg (by simp)]
  rw [tokenPayload_readU8]
  rw [if_neg (by simp)]
  rw [tokenPayload_readU64 s so si hc]
  by_cases httl : ttl > 0 ∧ (now : Int) - (c : Int) > (ttl : Int)
  · rw [if_pos httl, if_pos httl]
  · rw [if_neg httl, if_neg httl]
    rw [tokenPayload_readU32_state s so si c hs]
    rw [if_neg (by omega)]
    rw [tokenPayload_readU32_schema s so si c hso]
    rw [if_neg (by omega), if_neg (by omega)]
    rw [tokenPayload_readU32_input s so si c hsi]
    rw [if_neg (by omega), if_neg (by omega)]
    rw [tokenPayload_drop_state, List.take_left' rfl]
    rw [tokenPayload_drop_schema, List.take_left' rfl]
    rw [tokenPayload_drop_input, List.take_length]

/-- C1: State-token round-trip: for every byte strings s, so, si, every
signing key K, and every ttl that is 0 or at least (now − creation time),
unpacking a packed token under the same key succeeds and returns exactly the
state bytes, output-schema bytes, input-schema bytes and creation timestamp.
The mac function is the external HMAC-SHA-256, abstracted; the hypotheses
record its 32-byte digest length, the u32 bounds on the length prefixes that
Buffer.writeUInt32LE requires, and the 2^53 bound under which the JS Number
conversion of the stored u64 timestamp is exact. -/
theorem unpack_pack_roundtrip (hmac : Bytes → Bytes → Bytes)
    (s so si key : Bytes) (createdAt ttl now : Nat)
    (hm32 : (hmac key (tokenPayload s so si createdAt)).length = 32)
    (hs : s.length < 4294967296) (hso : so.length < 4294967296)
    (hsi : si.length < 4294967296)
    (hca : createdAt < 9007199254740992)
    (httl : ttl = 0 ∨ (now : Int) - (createdAt : Int) ≤ (ttl : Int)) :
    unpackStateToken hmac (packStateToken hmac s so si key createdAt) key ttl now
      = .ok ⟨s, so, si, createdAt⟩ := by
  rw [unpack_pack_eval hmac s so si key createdAt ttl now hm32 hs hso hsi (by omega)]
  rw [if_neg (by omega)]

/-- Test mac used only to instantiate the abstract HMAC parameter in witness
theorems: 31 zero bytes followed by a key/message-dependent byte. -/
def testMac (k m : Bytes) : Bytes :=
  List.replicate 31 0 ++ [(k.headD 0 + m.sum) % 256]

theorem unpack_pack_roundtrip_witness :
    unpackStateToken testMac
        (packStateToken testMac [10, 20] [30] [] [7] 1700000000) [7] 3600 1700000100
      = .ok ⟨[10, 20], [30], [], 1700000000⟩ :=
  unpack_pack_roundtrip testMac [10, 20] [30] [] [7] 1700000000 3600 1700000100
    (by decide) (by decide) (by decide) (by decide) (by decide)
    (Or.inr (by decide))

/-- Failed-MAC evaluation: whenever the stored trailing digest differs from
the recomputed one, unpack stops at the HMAC check. -/
theorem unpack_hmac_mismatch (hmac : Bytes → Bytes → Bytes)
    (token key : Bytes) (ttl now : Nat)
    (hlen : ¬ token.length < MIN_TOKEN_LEN)
    (hm32 : (hmac key (token.take (token.length - HMAC_LEN))).length = 32)
    (hne : token.drop (token.length - HMAC_LEN)
      ≠ hmac key (token.take (token.length - HMAC_LEN))) :
    unpackStateToken hmac token key ttl now = .error .hmacFailed := by
  simp only [unpackStateToken]
  rw [if_neg hlen]
  rw [if_neg (show ¬ (token.drop (token.length - HMAC_LEN)).length
      ≠ (hmac key (token.take (token.length - HMAC_LEN))).length by
    simp only [List.length_drop, hm32]
    simp only [MIN_TOKEN_LEN, HMAC_LEN] at hlen ⊢
    omega)]
  rw [if_pos hne]

/-- C3: HMAC-before-fields: a token whose recomputed digest does not match
the trailing 32 bytes fails with the HMAC-verification error, and any two
MAC-invalid tokens of equal length produce the identical outcome — the
payload contents never influence which error is raised, so no token field
(version, created_at, TTL, length-prefixed blobs) is ever read. -/
theorem hmac_checked_before_fields
    (hmac : Bytes → Bytes → Bytes) (t1 t2 key : Bytes) (ttl now : Nat)
    (hl1 : ¬ t1.length < MIN_TOKEN_LEN) (hl2 : ¬ t2.length < MIN_TOKEN_LEN)
    (hlen12 : t1.length = t2.length)
    (hm1 : (hmac key (t1.take (t1.length - HMAC_LEN))).length = 32)
    (hm2 : (hmac key (t2.take (t2.length - HMAC_LEN))).length = 32)
    (hne1 : t1.drop (t1.length - HMAC_LEN)
      ≠ hmac key (t1.take (t1.length - HMAC_LEN)))
    (hne2 : t2.drop (t2.length - HMAC_LEN)
      ≠ hmac key (t2.take (t2.length - HMAC_LEN))) :
    unpackStateToken hmac t1 key ttl now = .error .hmacFailed
    ∧ unpackStateToken hmac t2 key ttl now = .error .hmacFailed
    ∧ unpackStateToken hmac t1 key ttl now = unpackStateToken hmac t2 key ttl now := by
  have h1 := unpack_hmac_mismatch hmac t1 key ttl now hl1 hm1 hne1
  have h2 := unpack_hmac_mismatch hmac t2 key ttl now hl2 hm2 hne2
  exact ⟨h1, h2, h1.trans h2.symm⟩

theorem hmac_checked_before_fields_witness :
    unpackStateToken testMac (List.replicate 52 0 ++ [7]) [0] 3600 0
        = .error .hmacFailed
    ∧ unpackStateToken testMac (1 :: (List.replicate 51 0 ++ [9])) [0] 3600 0
        = unpackStateToken testMac (List.replicate 52 0 ++ [7]) [0] 3600 0 := by
  have h := hmac_checked_before_fields testMac
    (List.replicate 52 0 ++ [7]) (1 :: (List.replicate 51 0 ++ [9])) [0] 3600 0
    (by decide) (by decide) (by decide) (by decide) (by decide)
    (by decide) (by decide)
  exact ⟨h.1, h.2.2.symm⟩

/-- Flip of a single bit of a byte string: bit (i % 8) of byte (i / 8). -/
def flipBit (l : Bytes) (i : Nat) : Bytes :=
  l.set (i / 8) ((l.getD (i / 8) 0) ^^^ 2 ^ (i % 8))

@[simp] theorem length_flipBit (l : Bytes) (i : Nat) :
    (flipBit l i).length = l.length := List.length_set ..

theorem xor_two_pow_ne (x k : Nat) : x ^^^ 2 ^ k ≠ x := by
  intro h
  have h1 : x ^^^ (x ^^^ 2 ^ k) = 2 ^ k := by
    rw [← Nat.xor_assoc, Nat.xor_self, Nat.zero_xor]
  rw [h, Nat.xor_self] at h1
  have h2 : 0 < 2 ^ k := pow_pos (by norm_num) k
  omega

theorem set_xor_ne (l : Bytes) (k j : Nat) (hk : k < l.length) :
    l.set k ((l.getD k 0) ^^^ 2 ^ j) ≠ l := by
  intro h
  have h1 : (l.set k ((l.getD k 0) ^^^ 2 ^ j)).getD k 0 = l.getD k 0 := by rw [h]
  have h2 : (l.set k ((l.getD k 0) ^^^ 2 ^ j)).getD k 0 = (l.getD k 0) ^^^ 2 ^ j := by
    rw [List.getD_eq_getElem _ _ (by simpa using hk)]
    simp
  exact xor_two_pow_ne _ j (h2.symm.trans h1)

theorem flipBit_append_right (P M : Bytes) (i : Nat) (h : P.length ≤ i / 8) :
    flipBit (P ++ M) i =
      P ++ M.set (i / 8 - P.length)
        ((M.getD (i / 8 - P.length) 0) ^^^ 2 ^ (i % 8)) := by
  unfold flipBit
  rw [List.getD_append_right _ _ _ _ h, List.set_append_right _ _ h]

theorem flipBit_append_left (P M : Bytes) (i : Nat) (h : i / 8 < P.length) :
    flipBit (P ++ M) i = flipBit P i ++ M := by
  unfold flipBit
  rw [List.getD_append _ _ _ _ h, List.set_append_left _ _ h]

/-- Wrapper applied by the HTTP exchange endpoint around unpackStateToken
(http/dispatch.ts lines 203-208): any unpack failure is rethrown as an
HttpRpcError with status 400 and the underlying message appended. -/
def httpWrapUnpack (r : Except TokenError UnpackedToken) :
    Except (Nat × String) UnpackedToken :=
  match r with
  | .ok u => .ok u
  | .error e => .error (400, "Invalid state token: " ++ e.message)

theorem take_mac_split (P M : Bytes) (hM : M.length = 32) :
    (P ++ M).take ((P ++ M).length - HMAC_LEN) = P
    ∧ (P ++ M).drop ((P ++ M).length - HMAC_LEN) = M := by
  refine ⟨List.take_left' ?_, List.drop_left' ?_⟩ <;>
    (simp only [List.length_append, hM, HMAC_LEN]; omega)

/-- C2: State-token rejection: unpacking under a key whose recomputed digest
differs fails; unpacking after a single-bit flip anywhere in the packed
bytes fails (unconditionally when the flip lands in the trailing MAC,
and under the second-preimage hypothesis on the external HMAC when it lands
in the payload); unpacking an expired token (ttl > 0 and now − created_at >
ttl) fails; and the HTTP exchange endpoint wraps each of these failures as
status 400. -/
theorem stateToken_rejection (hmac : Bytes → Bytes → Bytes)
    (s so si key key2 : Bytes) (c ttl now ttl2 now2 iMac iPay : Nat)
    (hm32 : (hmac key (tokenPayload s so si c)).length = 32)
    (hs : s.length < 4294967296) (hso : so.length < 4294967296)
    (hsi : si.length < 4294967296) (hc : c < 9007199254740992)
    (hk2ne : hmac key2 (tokenPayload s so si c) ≠ hmac key (tokenPayload s so si c))
    (hk2len : (hmac key2 (tokenPayload s so si c)).length = 32)
    (hiMacLo : (tokenPayload s so si c).length * 8 ≤ iMac)
    (hiMacHi : iMac < ((tokenPayload s so si c).length + 32) * 8)
    (hiPay : iPay < (tokenPayload s so si c).length * 8)
    (hflipne : hmac key (flipBit (tokenPayload s so si c) iPay)
      ≠ hmac key (tokenPayload s so si c))
    (hfliplen : (hmac key (flipBit (tokenPayload s so si c) iPay)).length = 32)
    (httl2 : 0 < ttl2) (hexp : (now2 : Int) - (c : Int) > (ttl2 : Int)) :
    unpackStateToken hmac (packStateToken hmac s so si key c) key2 ttl now
        = .error .hmacFailed
    ∧ unpackStateToken hmac (flipBit (packStateToken hmac s so si key c) iMac)
        key ttl now = .error .hmacFailed
    ∧ unpackStateToken hmac (flipBit (packStateToken hmac s so si key c) iPay)
        key ttl now = .error .hmacFailed
    ∧ unpackStateToken hmac (packStateToken hmac s so si key c) key ttl2 now2
        = .error .expired
    ∧ httpWrapUnpack
        (unpackStateToken hmac (packStateToken hmac s so si key c) key2 ttl now)
        = .error (400, "Invalid state token: State token HMAC verification failed")
    ∧ httpWrapUnpack (unpackStateToken hmac
        (flipBit (packStateToken hmac s so si key c) iMac) key ttl now)
        = .error (400, "Invalid state token: State token HMAC verification failed")
    ∧ httpWrapUnpack (unpackStateToken hmac
        (flipBit (packStateToken hmac s so si key c) iPay) key ttl now)
        = .error (400, "Invalid state token: State token HMAC verification failed")
    ∧ httpWrapUnpack
        (unpackStateToken hmac (packStateToken hmac s so si key c) key ttl2 now2)
        = .error (400, "Invalid state token: State token expired") := by
  have hpk : packStateToken hmac s so si key c
      = tokenPayload s so si c ++ hmac key (tokenPayload s so si c) := rfl
  have hPlen := tokenPayload_length s so si c
  have hA : unpackStateToken hmac (packStateToken hmac s so si key c) key2 ttl now
      = .error .hmacFailed := by
    rw [hpk]
    have hsplit := take_mac_split (tokenPayload s so si c)
      (hmac key (tokenPayload s so si c)) hm32
    apply unpack_hmac_mismatch
    · simp only [List.length_append, hm32, MIN_TOKEN_LEN, HMAC_LEN]
      omega
    · rw [hsplit.1]
      exact hk2len
    · rw [hsplit.1, hsplit.2]
      exact hk2ne.symm
  have hB : unpackStateToken hmac
      (flipBit (packStateToken hmac s so si key c) iMac) key ttl now
      = .error .hmacFailed := by
    rw [hpk, flipBit_append_right _ _ iMac (by omega)]
    have hset32 : ((hmac key (tokenPayload s so si c)).set
        (iMac / 8 - (tokenPayload s so si c).length)
        ((hmac key (tokenPayload s so si c)).getD
          (iMac / 8 - (tokenPayload s so si c).length) 0
          ^^^ 2 ^ (iMac % 8))).length = 32 := by
      simp [hm32]
    have hsplit := take_mac_split (tokenPayload s so si c) _ hset32
    apply unpack_hmac_mismatch
    · simp only [List.length_append, hset32, MIN_TOKEN_LEN, HMAC_LEN]
      omega
    · rw [hsplit.1]
      exact hm32
    · rw [hsplit.1, hsplit.2]
      exact set_xor_ne _ _ _ (by rw [hm32]; omega)
  have hC : unpackStateToken hmac
      (flipBit (packStateToken hmac s so si key c) iPay) key ttl now
      = .error .hmacFailed := by
    rw [hpk, flipBit_append_left _ _ iPay (by omega)]
    have hsplit := take_mac_split (flipBit (tokenPayload s so si c) iPay)
      (hmac key (tokenPayload s so si c)) hm32
    apply unpack_hmac_mismatch
    · simp only [List.length_append, length_flipBit, hm32, MIN_TOKEN_LEN, HMAC_LEN]
      omega
    · rw [hsplit.1]
      exact hfliplen
    · rw [hsplit.1, hsplit.2]
      exact hflipne.symm
  have hD : unpackStateToken hmac (packStateToken hmac s so si key c) key ttl2 now2
      = .error .expired := by
    rw [unpack_pack_eval hmac s so si key c ttl2 now2 hm32 hs hso hsi (by omega),
      if_pos ⟨httl2, hexp⟩]
  refine ⟨hA, hB, hC, hD, ?_, ?_, ?_, ?_⟩
  · rw [hA]
    rfl
  · rw [hB]
    rfl
  · rw [hC]
    rfl
  · rw [hD]
    rfl

theorem stateToken_rejection_witness :
    unpackStateToken testMac (packStateToken testMac [5] [6] [] [1] 3) [2] 0 0
        = .error .hmacFailed
    ∧ unpackStateToken testMac
        (flipBit (packStateToken testMac [5] [6] [] [1] 3) 184) [1] 0 0
        = .error .hmacFailed
    ∧ unpackStateToken testMac
        (flipBit (packStateToken testMac [5] [6] [] [1] 3) 0) [1] 0 0
        = .error .hmacFailed
    ∧ unpackStateToken testMac (packStateToken testMac [5] [6] [] [1] 3) [1] 1 10
        = .error .expired := by
  have h := stateToken_rejection testMac [5] [6] [] [1] [2] 3 0 0 1 10 184 0
    (by decide) (by decide) (by decide) (by decide) (by decide) (by decide)
    (by decide) (by decide) (by decide) (by decide) (by decide) (by decide)
    (by decide) (by decide)
  exact ⟨h.1, h.2.1, h.2.2.1, h.2.2.2.1⟩

/-! ## Wire model: metadata keys (src/constants.ts), schemas, batches -/

def RPC_METHOD_KEY : String := "vgi_rpc.method"

def LOG_LEVEL_KEY : String := "vgi_rpc.log_level"

def LOG_MESSAGE_KEY : String := "vgi_rpc.log_message"

def LOG_EXTRA_KEY : String := "vgi_rpc.log_extra"

def REQUEST_VERSION_KEY : String := "vgi_rpc.request_version"

def REQUEST_VERSION : String := "1"

def SERVER_ID_KEY : String := "vgi_rpc.server_id"

def REQUEST_ID_KEY : String := "vgi_rpc.request_id"

def STATE_KEY : String := "vgi_rpc.stream_state"

def DESCRIBE_METHOD_NAME : String := "__describe__"

/-- Arrow data types that appear in the embedded code paths. -/
inductive ArrowType where
  | utf8
  | boolean
  | int64
  | float64
  | binary
  | other (name : String)
deriving DecidableEq, Repr

/-- One schema field: name, data type, nullable flag. -/
structure Field where
  name : String
  nullable : Bool
  typ : ArrowType
deriving DecidableEq, Repr

/-- Ordered field list. -/
abbrev Schema := List Field

/-- Batch metadata: an insertion-ordered string map (JS Map semantics). -/
abbrev Meta := List (String × String)

/-- Map.get: first entry with the given key. -/
def metaGet : Meta → String → Option String
  | [], _ => none
  | p :: rest, k => if p.1 = k then some p.2 else metaGet rest k

/-- Map.set: replace an existing key in place, else append. -/
def metaSet : Meta → String → String → Meta
  | [], k, v => [(k, v)]
  | p :: rest, k, v => if p.1 = k then (k, v) :: rest else p :: metaSet rest k v

theorem metaGet_metaSet (m : Meta) (k v : String) :
    metaGet (metaSet m k v) k = some v := by
  induction m with
  | nil => simp [metaSet, metaGet]
  | cons p rest ih =>
    by_cases h : p.1 = k
    · simp [metaSet, metaGet, h]
    · simp [metaSet, metaGet, h, ih]

/-- Abstract cell value of one column entry (null = none); the concrete
columnar payload of the external IPC library is out of scope. -/
abbrev Cell := Option Nat

/-- Record batch: row count, metadata map, named columns. -/
structure Batch where
  numRows : Nat
  metadata : Meta := []
  cols : List (String × List Cell) := []
deriving DecidableEq, Repr

instance : Inhabited Batch := ⟨⟨0, [], []⟩⟩

/-- Class of a JS error value, for instanceof checks. -/
inductive ErrClass where
  | rpcError
  | versionError
  | typeError
  | generic
deriving DecidableEq, Repr

/-- JS Error value: constructor name, message, stack (runtime stacks are not
modelled and stay empty). -/
structure JsError where
  cls : ErrClass
  ctorName : String
  message : String
  stack : String := ""
deriving DecidableEq, Repr

/-- RpcError from src/errors.ts: message is "errorType: errorMessage". -/
def mkRpcError (errorType errorMessage : String) : JsError :=
  ⟨.rpcError, "RpcError", errorType ++ ": " ++ errorMessage, ""⟩

def mkVersionError (m : String) : JsError := ⟨.versionError, "VersionError", m, ""⟩

def mkTypeError (m : String) : JsError := ⟨.typeError, "TypeError", m, ""⟩

def mkError (m : String) : JsError := ⟨.generic, "Error", m, ""⟩

def jsonStr (s : String) : String := "\"" ++ s ++ "\""

/-- JSON.stringify of a flat string-valued object (escaping elided: the
modelled values contain no JSON metacharacters). -/
def jsonObj (fields : List (String × String)) : String :=
  "\x7b" ++ String.intercalate "," (fields.map fun p => jsonStr p.1 ++ ":" ++ jsonStr p.2)
    ++ "\x7d"

/-! ## Response builders (src/wire/response.ts) -/

/-- buildEmptyBatch: 0-row batch shaped to the schema with given metadata. -/
def buildEmptyBatch (schema : Schema) (metadata : Meta) : Batch :=
  ⟨0, metadata, schema.map fun f => (f.name, [])⟩

/-- buildErrorBatch: 0-row batch with EXCEPTION metadata
(response.ts lines 98-120). -/
def buildErrorBatch (schema : Schema) (e : JsError) (serverId : String)
    (requestId : Option String) : Batch :=
  let md := [(LOG_LEVEL_KEY, "EXCEPTION"),
             (LOG_MESSAGE_KEY, e.ctorName ++ ": " ++ e.message),
             (LOG_EXTRA_KEY, jsonObj [("exception_type", e.ctorName),
                                      ("exception_message", e.message),
                                      ("traceback", e.stack)]),
             (SERVER_ID_KEY, serverId)]
  let md := match requestId with
    | some r => md ++ [(REQUEST_ID_KEY, r)]
    | none => md
  buildEmptyBatch schema md

/-- buildLogBatch: 0-row batch with log metadata (response.ts lines 125-147). -/
def buildLogBatch (schema : Schema) (level message : String)
    (extra : Option (List (String × String))) (serverId : Option String)
    (requestId : Option String) : Batch :=
  let md := [(LOG_LEVEL_KEY, level), (LOG_MESSAGE_KEY, message)]
  let md := match extra with
    | some e => md ++ [(LOG_EXTRA_KEY, jsonObj e)]
    | none => md
  let md := match serverId with
    | some sid => md ++ [(SERVER_ID_KEY, sid)]
    | none => md
  let md := match requestId with
    | some r => md ++ [(REQUEST_ID_KEY, r)]
    | none => md
  buildEmptyBatch schema md

/-! ## OutputCollector (src/types.ts lines 76-159) -/

/-- Entry of the collector's pending list: the batch plus the optional
metadata passed to emit (interface EmittedBatch). -/
structure EmittedBatch where
  batch : Batch
  metadata : Option Meta := none
deriving DecidableEq, Repr

instance : Inhabited EmittedBatch := ⟨⟨default, none⟩⟩

/-- Collector state: pending batches, index of the one data batch if already
emitted, finished flag, mode and identity fields. -/
structure OutputCollector where
  batches : List EmittedBatch := []
  dataBatchIdx : Option Nat := none
  finished : Bool := false
  producerMode : Bool := true
  outputSchema : Schema := []
  serverId : String := ""
  requestId : Option String := none
deriving DecidableEq, Repr

/-- Fresh collector, as built by the constructor. -/
def OutputCollector.init (outputSchema : Schema) (producerMode : Bool)
    (serverId : String) (requestId : Option String) : OutputCollector :=
  ⟨[], none, false, producerMode, outputSchema, serverId, requestId⟩

/-- emit of a pre-built batch: throws if a data batch was already emitted,
else records the index and appends (types.ts lines 108-124). -/
def OutputCollector.emitBatch (c : OutputCollector) (b : Batch)
    (meta : Option Meta) : Except String OutputCollector :=
  if c.dataBatchIdx.isSome then
    .error "Only one data batch may be emitted per call"
  else
    .ok { c with dataBatchIdx := some c.batches.length,
                 batches := c.batches ++ [⟨b, meta⟩] }

/-- emit of column arrays: recordBatchFromArrays derives the row count from
the arrays (the Int64 number→BigInt coercion is value-preserving and the
cells are abstract, so it is elided). -/
def rowsBatch (cols : List (String × List Cell)) : Batch :=
  ⟨(cols.headD ("", [])).2.length, [], cols⟩

def OutputCollector.emitCols (c : OutputCollector)
    (cols : List (String × List Cell)) : Except String OutputCollector :=
  c.emitBatch (rowsBatch cols) none

/-- emitRow: wraps each value in a one-element column, then emits
(types.ts lines 127-133). -/
def OutputCollector.emitRow (c : OutputCollector)
    (values : List (String × Cell)) : Except String OutputCollector :=
  c.emitCols (values.map fun kv => (kv.1, [kv.2]))

/-- finish: throws on exchange collectors, else sets the flag
(types.ts lines 136-144). -/
def OutputCollector.finish (c : OutputCollector) : Except String OutputCollector :=
  if !c.producerMode then
    .error ("finish() is not allowed on exchange streams; "
      ++ "exchange streams must emit exactly one data batch per call")
  else
    .ok { c with finished := true }

/-- clientLog: appends a zero-row log batch, never throws
(types.ts lines 147-157). -/
def OutputCollector.clientLog (c : OutputCollector) (level message : String)
    (extra : Option (List (String × String))) : OutputCollector :=
  { c with batches := c.batches ++
      [⟨buildLogBatch c.outputSchema level message extra (some c.serverId)
          c.requestId, none⟩] }

/-- One handler-visible collector call. -/
inductive CollectorOp where
  | emit (b : Batch) (meta : Option Meta)
  | emitRow (values : List (String × Cell))
  | clientLog (level message : String) (extra : Option (List (String × String)))
  | finish
deriving DecidableEq, Repr

def OutputCollector.applyOp (c : OutputCollector) :
    CollectorOp → Except String OutputCollector
  | .emit b m => c.emitBatch b m
  | .emitRow v => c.emitRow v
  | .clientLog l m e => .ok (c.clientLog l m e)
  | .finish => c.finish

/-- Run of a call sequence; a throwing call leaves the collector unchanged
(the worst case: a handler that catches every exception and keeps going). -/
def OutputCollector.runOps (c : OutputCollector) :
    List CollectorOp → OutputCollector
  | [] => c
  | op :: rest =>
    match c.applyOp op with
    | .ok c2 => c2.runOps rest
    | .error _ => c.runOps rest

/-- Number of emit/emitRow calls that were accepted (did not throw) during
a run — each accepted one adds exactly one data batch to the pending list. -/
def OutputCollector.emitsAccepted (c : OutputCollector) :
    List CollectorOp → Nat
  | [] => 0
  | op :: rest =>
    match c.applyOp op with
    | .ok c2 =>
      (match op with
       | .emit _ _ => 1
       | .emitRow _ => 1
       | _ => 0) + c2.emitsAccepted rest
    | .error _ => c.emitsAccepted rest

theorem emitBatch_ok_inv {c c2 : OutputCollector} {b : Batch} {meta : Option Meta}
    (h : c.emitBatch b meta = .ok c2) :
    c.dataBatchIdx.isSome = false ∧ c2.dataBatchIdx.isSome = true := by
  cases hd : c.dataBatchIdx.isSome with
  | true => simp [OutputCollector.emitBatch, hd] at h
  | false =>
    simp only [OutputCollector.emitBatch, hd, Bool.false_eq_true, if_false,
      Except.ok.injEq] at h
    refine ⟨rfl, ?_⟩
    rw [← h]
    rfl

theorem emitRow_ok_inv {c c2 : OutputCollector} {v : List (String × Cell)}
    (h : c.emitRow v = .ok c2) :
    c.dataBatchIdx.isSome = false ∧ c2.dataBatchIdx.isSome = true :=
  emitBatch_ok_inv h

theorem finish_ok_inv {c c2 : OutputCollector} (h : c.finish = .ok c2) :
    c2.dataBatchIdx = c.dataBatchIdx := by
  cases hpm : (!c.producerMode) with
  | true => simp [OutputCollector.finish, hpm] at h
  | false =>
    simp only [OutputCollector.finish, hpm, Bool.false_eq_true, if_false,
      Except.ok.injEq] at h
    rw [← h]

theorem emitsAccepted_bound (ops : List CollectorOp) :
    ∀ c : OutputCollector,
      c.emitsAccepted ops ≤ if c.dataBatchIdx.isSome then 0 else 1 := by
  induction ops with
  | nil => intro c; simp [OutputCollector.emitsAccepted]
  | cons op rest ih =>
    intro c
    cases hop : c.applyOp op with
    | error e =>
      simp only [OutputCollector.emitsAccepted, hop]
      exact ih c
    | ok c2 =>
      simp only [OutputCollector.emitsAccepted, hop]
      cases op with
      | emit b m =>
        have hd := emitBatch_ok_inv hop
        have h2 := ih c2
        rw [hd.2] at h2
        simp only [if_pos] at h2
        simp [hd.1]
        omega
      | emitRow v =>
        have hd := emitRow_ok_inv hop
        have h2 := ih c2
        rw [hd.2] at h2
        simp only [if_pos] at h2
        simp [hd.1]
        omega
      | clientLog l m e =>
        simp only [OutputCollector.applyOp, Except.ok.injEq] at hop
        have h2 := ih c2
        rw [← hop] at h2 ⊢
        simpa [OutputCollector.clientLog] using h2
      | finish =>
        simp only [OutputCollector.applyOp] at hop
        have hd := finish_ok_inv hop
        have h2 := ih c2
        rw [hd] at h2
        simpa using h2

/-- C4: OutputCollector invariant: over every sequence of
emit/emitRow/clientLog/finish calls on a fresh collector at most one data
batch is ever accepted into the pending list, a second emit always throws,
and finish always throws on an exchange-mode (non-producer) collector. -/
theorem outputCollector_invariant
    (pm : Bool) (schema : Schema) (sid : String) (rid : Option String)
    (ops : List CollectorOp) (c : OutputCollector) (b : Batch)
    (meta : Option Meta)
    (hsome : c.dataBatchIdx.isSome = true) (hpm : c.producerMode = false) :
    (OutputCollector.init schema pm sid rid).emitsAccepted ops ≤ 1
    ∧ c.emitBatch b meta = .error "Only one data batch may be emitted per call"
    ∧ c.finish = .error ("finish() is not allowed on exchange streams; "
        ++ "exchange streams must emit exactly one data batch per call") := by
  refine ⟨?_, ?_, ?_⟩
  · have h := emitsAccepted_bound ops (OutputCollector.init schema pm sid rid)
    simpa [OutputCollector.init] using h
  · simp [OutputCollector.emitBatch, hsome]
  · simp [OutputCollector.finish, hpm]

theorem outputCollector_invariant_witness :
    (OutputCollector.init [] true "s" none).emitsAccepted
        [.emit ⟨1, [], []⟩ none, .emit ⟨1, [], []⟩ none, .clientLog "INFO" "x" none] ≤ 1
    ∧ ({ OutputCollector.init [] false "s" none with
          dataBatchIdx := some 0 } : OutputCollector).finish
        = .error ("finish() is not allowed on exchange streams; "
            ++ "exchange streams must emit exactly one data batch per call") := by
  have h := outputCollector_invariant true [] "s" none
    [.emit ⟨1, [], []⟩ none, .emit ⟨1, [], []⟩ none, .clientLog "INFO" "x" none]
    ({ OutputCollector.init [] false "s" none with dataBatchIdx := some 0 })
    ⟨1, [], []⟩ none (by decide) (by decide)
  exact ⟨h.1, h.2.2⟩

/-! ## Per-round flush on the pipe (src/dispatch/stream.ts lines 128-130) -/

/-- Batches written onto the open output stream for one produce/exchange
round: the dispatcher iterates the collector's pending list in order and
writes each entry's batch. -/
def pipeFlushRound (out : OutputCollector) : List Batch :=
  out.batches.map fun eb => eb.batch

theorem runOps_append (l1 l2 : List CollectorOp) :
    ∀ c : OutputCollector, c.runOps (l1 ++ l2) = (c.runOps l1).runOps l2 := by
  induction l1 with
  | nil => intro c; simp [OutputCollector.runOps]
  | cons op rest ih =>
    intro c
    simp only [List.cons_append, OutputCollector.runOps]
    cases c.applyOp op with
    | ok c2 => exact ih c2
    | error e => exact ih c

theorem runOps_logs (msgs : List (String × String)) :
    ∀ c : OutputCollector,
      c.runOps (msgs.map fun p => CollectorOp.clientLog p.1 p.2 none)
        = { c with batches := c.batches ++ msgs.map fun p =>
              (⟨buildLogBatch c.outputSchema p.1 p.2 none (some c.serverId)
                  c.requestId, none⟩ : EmittedBatch) } := by
  induction msgs with
  | nil => intro c; simp [OutputCollector.runOps]
  | cons p rest ih =>
    intro c
    simp only [List.map_cons, OutputCollector.runOps, OutputCollector.applyOp]
    rw [ih (c.clientLog p.1 p.2 none)]
    simp [OutputCollector.clientLog]

/-- C7 (amended): the pipe dispatcher writes the collector's batches in the
exact order the handler's calls accumulated them.  In particular, when the
handler issues its clientLog calls around a single emit, the written round
is: the log batches made before the emit, then the data batch, then any log
batches made after it — logs precede the data batch exactly when the handler
logged before emitting, not unconditionally. -/
theorem pipe_write_order
    (schema : Schema) (sid : String) (rid : Option String) (pm : Bool)
    (msgs1 msgs2 : List (String × String)) (d : Batch) (meta : Option Meta) :
    pipeFlushRound ((OutputCollector.init schema pm sid rid).runOps
        ((msgs1.map fun p => CollectorOp.clientLog p.1 p.2 none)
          ++ [CollectorOp.emit d meta]
          ++ (msgs2.map fun p => CollectorOp.clientLog p.1 p.2 none)))
      = (msgs1.map fun p => buildLogBatch schema p.1 p.2 none (some sid) rid)
        ++ [d]
        ++ (msgs2.map fun p => buildLogBatch schema p.1 p.2 none (some sid) rid) := by
  rw [runOps_append, runOps_append, runOps_logs]
  simp only [OutputCollector.init]
  simp only [OutputCollector.runOps, OutputCollector.applyOp,
    OutputCollector.emitBatch]
  rw [runOps_logs]
  simp [pipeFlushRound, Function.comp]
  simp [Function.comp_def]

/-- Refutation input for the claim's original form: a handler that emits the
data batch first and logs afterwards has the log batch written after the
data batch, not before it. -/
theorem pipe_write_order_counterexample :
    pipeFlushRound ((OutputCollector.init [] false "s1" none).runOps
        [CollectorOp.emit ⟨1, [], [("n", [some 5])]⟩ none,
         CollectorOp.clientLog "INFO" "after-data" none])
      = [⟨1, [], [("n", [some 5])]⟩,
         buildLogBatch [] "INFO" "after-data" none (some "s1") none]
    ∧ pipeFlushRound ((OutputCollector.init [] false "s1" none).runOps
        [CollectorOp.emit ⟨1, [], [("n", [some 5])]⟩ none,
         CollectorOp.clientLog "INFO" "after-data" none])
      ≠ [buildLogBatch [] "INFO" "after-data" none (some "s1") none,
         ⟨1, [], [("n", [some 5])]⟩]
    ∧ (buildLogBatch [] "INFO" "after-data" none (some "s1") none).numRows = 0
    ∧ (⟨1, [], [("n", [some 5])]⟩ : Batch).numRows = 1 := by
  refine ⟨by decide, by decide, by decide, by decide⟩

/-! ## HTTP exchange-endpoint token attachment
(src/http/dispatch.ts lines 248-262) -/

/-- Token merge performed by httpDispatchStreamExchange after a successful
exchange round: every accumulated batch with at least one row gets the
rotated token set in its metadata; zero-row batches pass through unchanged,
and nothing is appended. -/
def mergeTokenIntoBatches (token : String) (ebs : List EmittedBatch) :
    List Batch :=
  ebs.map fun eb =>
    if 0 < eb.batch.numRows then
      { eb.batch with metadata := metaSet eb.batch.metadata STATE_KEY token }
    else eb.batch

/-- Response batches of one exchange round: the collector's accumulated
batches with the rotated token merged in. -/
def httpExchangeRound (out : OutputCollector) (token : String) : List Batch :=
  mergeTokenIntoBatches token out.batches

/-- C6 (amended): on a successful exchange round the rotated token is
attached to the metadata of every emitted batch with at least one row (in
particular the data batch); zero-row batches are passed through unchanged
and no trailing token batch is appended — the response has exactly the
batches the handler emitted. -/
theorem httpExchange_token_attachment (token : String) (out : OutputCollector)
    (i : Nat) (hi : i < out.batches.length) :
    (httpExchangeRound out token).length = out.batches.length
    ∧ (0 < ((out.batches.getD i default).batch.numRows) →
        metaGet ((httpExchangeRound out token).getD i default).metadata STATE_KEY
          = some token)
    ∧ ((out.batches.getD i default).batch.numRows = 0 →
        (httpExchangeRound out token).getD i default
          = (out.batches.getD i default).batch) := by
  have hlen : (httpExchangeRound out token).length = out.batches.length := by
    simp [httpExchangeRound, mergeTokenIntoBatches]
  have hmap : (httpExchangeRound out token).getD i default
      = (fun eb : EmittedBatch =>
          if 0 < eb.batch.numRows then
            { eb.batch with metadata := metaSet eb.batch.metadata STATE_KEY token }
          else eb.batch) (out.batches.getD i default) := by
    rw [List.getD_eq_getElem _ _ (by rw [hlen]; exact hi),
      List.getD_eq_getElem _ _ hi]
    simp [httpExchangeRound, mergeTokenIntoBatches]
  refine ⟨hlen, ?_, ?_⟩
  · intro hpos
    rw [hmap]
    simp only [if_pos hpos]
    exact metaGet_metaSet _ _ _
  · intro hzero
    rw [hmap]
    simp only [hzero]
    rw [if_neg (by omega)]

theorem httpExchange_token_attachment_witness :
    (httpExchangeRound ⟨[⟨⟨2, [], []⟩, none⟩], some 0, false, false, [], "s", none⟩
        "tok").length = 1
    ∧ metaGet ((httpExchangeRound
        ⟨[⟨⟨2, [], []⟩, none⟩], some 0, false, false, [], "s", none⟩
        "tok").getD 0 default).metadata STATE_KEY = some "tok" := by
  have h := httpExchange_token_attachment "tok"
    ⟨[⟨⟨2, [], []⟩, none⟩], some 0, false, false, [], "s", none⟩ 0 (by decide)
  exact ⟨h.1, h.2.1 (by decide)⟩

/-- Refutation input for the claim's original second half: a round in which
the handler emitted no data batch (here: one zero-row log batch only)
produces a response with exactly that batch unchanged — the token is not
attached anywhere and no trailing zero-row token batch is appended. -/
theorem httpExchange_no_trailing_token_counterexample :
    httpExchangeRound
        ⟨[⟨buildLogBatch [] "INFO" "progress" none (some "s1") none, none⟩],
          none, false, false, [], "s1", none⟩ "tok123"
      = [buildLogBatch [] "INFO" "progress" none (some "s1") none]
    ∧ metaGet (buildLogBatch [] "INFO" "progress" none (some "s1") none).metadata
        STATE_KEY = none
    ∧ (httpExchangeRound
        ⟨[⟨buildLogBatch [] "INFO" "progress" none (some "s1") none, none⟩],
          none, false, false, [], "s1", none⟩ "tok123").length = 1 := by
  refine ⟨by decide, by decide, by decide⟩

/-! ## Pipe stream dispatcher (src/dispatch/stream.ts) -/

/-- Outcome of one loop round: the handler either completed — yielding the
new state, the collector's accumulated batches and the producer finish
flag — or threw. -/
inductive HandlerResult (S : Type) where
  | ok (state : S) (outs : List EmittedBatch) (finished : Bool)
  | err (e : JsError)

/-- Events written onto the outbound pipe. -/
inductive WriteEvent where
  | streamMsg (schema : Schema) (batches : List Batch)
  | openMsg (schema : Schema)
  | batchMsg (b : Batch)
  | closeMsg
deriving DecidableEq, Repr

/-- Drain loop: read input batches until the end-of-stream marker, returning
the batches left unconsumed afterwards (stream.ts lines 146-150, and the
identical drains at 51-56 and 88-93). -/
def drainRemaining : List Batch → List Batch
  | [] => []
  | _ :: rest => drainRemaining rest

theorem drainRemaining_eq_nil (l : List Batch) : drainRemaining l = [] := by
  induction l with
  | nil => rfl
  | cons _ t ih => simpa [drainRemaining] using ih

/-- Data loop (stream.ts lines 116-138): read one input batch per round,
invoke the handler, write the accumulated batches, break on finish or
handler error.  Returns the events written and the input batches left
unread when the loop exits. -/
def streamLoop {S : Type} (step : S → Batch → HandlerResult S)
    (outputSchema : Schema) (serverId : String) (requestId : Option String) :
    S → List Batch → List WriteEvent × List Batch
  | _, [] => ([], [])
  | s, b :: rest =>
    match step s b with
    | .err e =>
      ([.batchMsg (buildErrorBatch outputSchema e serverId requestId)], rest)
    | .ok s2 outs fin =>
      let evs := outs.map fun eb => WriteEvent.batchMsg eb.batch
      if fin then (evs, rest)
      else
        let r := streamLoop step outputSchema serverId requestId s2 rest
        (evs ++ r.1, r.2)

/-- Loop phase of dispatchStream (stream.ts lines 97-150): open the client's
input stream (EOF → error stream, nothing to read), run the data loop on one
continuous output stream, then drain whatever input the loop left behind. -/
def dispatchLoopPhase {S : Type} (step : S → Batch → HandlerResult S)
    (outputSchema : Schema) (serverId : String) (requestId : Option String)
    (state : S) (input : Option (List Batch)) (headerEvs : List WriteEvent) :
    List WriteEvent × List Batch :=
  match input with
  | none =>
    (headerEvs ++ [.streamMsg outputSchema
      [buildErrorBatch outputSchema (mkError "Expected input stream but got EOF")
        serverId requestId]], [])
  | some inBatches =>
    let r := streamLoop step outputSchema serverId requestId state inBatches
    (headerEvs ++ [.openMsg outputSchema] ++ r.1 ++ [.closeMsg],
     drainRemaining r.2)

/-- dispatchStream (stream.ts lines 28-151): init, optional header stream,
then the data loop.  init or header failure writes an error stream and still
opens and drains the client's input stream.  Handlers are abstracted as an
init result, a header builder and a per-round step (the resolved output
schema already reflects any dynamic override).  Returns the events written
and the input batches never consumed. -/
def dispatchStream {S : Type}
    (initRes : Except JsError S) (headerSchema : Option Schema)
    (headerRes : S → Except JsError (List Batch))
    (step : S → Batch → HandlerResult S)
    (outputSchema : Schema) (serverId : String) (requestId : Option String)
    (input : Option (List Batch)) : List WriteEvent × List Batch :=
  match initRes with
  | .error e =>
    let errSchema := headerSchema.getD []
    ([.streamMsg errSchema [buildErrorBatch errSchema e serverId requestId]],
     match input with
     | none => []
     | some l => drainRemaining l)
  | .ok state =>
    match headerSchema with
    | some hs =>
      match headerRes state with
      | .error e =>
        ([.streamMsg hs [buildErrorBatch hs e serverId requestId]],
         match input with
         | none => []
         | some l => drainRemaining l)
      | .ok hbatches =>
        dispatchLoopPhase step outputSchema serverId requestId state input
          [.streamMsg hs hbatches]
    | none =>
      dispatchLoopPhase step outputSchema serverId requestId state input []

/-- C5: Pipe drain discipline: however dispatchStream terminates — producer
finish asserted, handler error mid-loop, init or header failure, or normal
input exhaustion — it consumes the client's input stream through to its
end-of-stream marker: no input batch is ever left unread on the pipe, so the
next request starts at a stream boundary. -/
theorem dispatchStream_drains_input {S : Type}
    (initRes : Except JsError S) (headerSchema : Option Schema)
    (headerRes : S → Except JsError (List Batch))
    (step : S → Batch → HandlerResult S)
    (outputSchema : Schema) (serverId : String) (requestId : Option String)
    (input : Option (List Batch)) :
    (dispatchStream initRes headerSchema headerRes step outputSchema serverId
      requestId input).2 = [] := by
  cases initRes with
  | error e =>
    cases input <;> simp [dispatchStream, drainRemaining_eq_nil]
  | ok state =>
    cases headerSchema with
    | none =>
      cases input <;>
        simp [dispatchStream, dispatchLoopPhase, drainRemaining_eq_nil]
    | some hs =>
      cases hh : headerRes state with
      | error e =>
        cases input <;> simp [dispatchStream, hh, drainRemaining_eq_nil]
      | ok hbatches =>
        cases input <;>
          simp [dispatchStream, hh, dispatchLoopPhase, drainRemaining_eq_nil]

/-! ## Result batch construction (src/wire/response.ts lines 46-93) -/

/-- JS object lookup: first entry with the key (keys are unique in a JS
object; value presence models `values[name] !== undefined`). -/
def valuesGet : List (String × Nat) → String → Option Nat
  | [], _ => none
  | p :: rest, k => if p.1 = k then some p.2 else valuesGet rest k

theorem valuesGet_append (a b : List (String × Nat)) (k : String) :
    valuesGet (a ++ b) k =
      match valuesGet a k with
      | some v => some v
      | none => valuesGet b k := by
  induction a with
  | nil => simp [valuesGet]
  | cons p rest ih =>
    by_cases h : p.1 = k
    · simp [valuesGet, h]
    · simp [valuesGet, h, ih]

/-- Failure of buildResultBatch (the TypeError thrown at response.ts 66-68,
which the spec's taxonomy names ContractError). -/
inductive BuildError where
  | missingField (fieldName : String) (gotKeys : List String)
deriving DecidableEq, Repr

/-- Message text of the thrown TypeError: names the first missing required
field and lists the received keys. -/
def BuildError.message : BuildError → String
  | .missingField f got =>
    "Handler result missing required field '" ++ f ++ "'. Got keys: ["
      ++ String.intercalate ", " got ++ "]"

/-- buildResultBatch: metadata carries server_id and the optional request_id;
an empty schema yields the empty batch; otherwise the first non-nullable
field without a supplied value raises the ContractError listing the received
keys, and on success one row is built reading exactly the schema's field
names from the value map (keys outside the schema are never read; the
value-preserving Int64 number→BigInt coercion is elided, cells being
abstract). -/
def buildResultBatch (schema : Schema) (values : List (String × Nat))
    (serverId : String) (requestId : Option String) : Except BuildError Batch :=
  let md : Meta := [(SERVER_ID_KEY, serverId)] ++
    (match requestId with | some r => [(REQUEST_ID_KEY, r)] | none => [])
  if schema.isEmpty then .ok (buildEmptyBatch schema md)
  else
    match schema.find? (fun f => !f.nullable && (valuesGet values f.name).isNone) with
    | some f => .error (.missingField f.name (values.map fun p => p.1))
    | none => .ok ⟨1, md, schema.map fun f => (f.name, [valuesGet values f.name])⟩

theorem find?_congr {α : Type} (p q : α → Bool) :
    ∀ l : List α, (∀ a ∈ l, p a = q a) → l.find? p = l.find? q := by
  intro l
  induction l with
  | nil => intro _; rfl
  | cons x t ih =>
    intro h
    simp only [List.find?]
    rw [h x (List.mem_cons_self x t)]
    cases hq : q x
    · simpa [hq] using ih fun a ha => h a (List.mem_cons_of_mem _ ha)
    · rfl

/-- C8: build_result_batch precondition failure: with a non-empty result
schema, a missing non-nullable field fails with a ContractError listing the
received keys; a value map supplying every non-nullable field succeeds; and
extra keys outside the schema are silently ignored — they change neither the
outcome nor the built batch. -/
theorem buildResultBatch_required_fields
    (schema : Schema) (values values2 extras : List (String × Nat))
    (sid : String) (rid : Option String) (f : Field)
    (hmem : f ∈ schema) (hnn : f.nullable = false)
    (hmiss : valuesGet values f.name = none)
    (hall : ∀ g ∈ schema, g.nullable = true ∨ (valuesGet values2 g.name).isSome = true)
    (hdisj : ∀ g ∈ schema, valuesGet extras g.name = none) :
    (∃ name, buildResultBatch schema values sid rid
        = .error (.missingField name (values.map fun p => p.1)))
    ∧ (buildResultBatch schema values2 sid rid).isOk = true
    ∧ buildResultBatch schema (values2 ++ extras) sid rid
        = buildResultBatch schema values2 sid rid := by
  have hee : schema.isEmpty = false := by
    cases schema with
    | nil => cases hmem
    | cons a t => rfl
  have hpt : ∀ g ∈ schema,
      valuesGet (values2 ++ extras) g.name = valuesGet values2 g.name := by
    intro g hg
    rw [valuesGet_append]
    cases hv : valuesGet values2 g.name
    · simp [hdisj g hg]
    · simp
  have hfind2 : schema.find?
      (fun g => !g.nullable && (valuesGet values2 g.name).isNone) = none := by
    rw [List.find?_eq_none]
    intro x hx
    rcases hall x hx with h | h
    · simp [h]
    · obtain ⟨v, hv⟩ := Option.isSome_iff_exists.mp h
      simp [hv]
  have hfind3 : schema.find?
      (fun g => !g.nullable && (valuesGet (values2 ++ extras) g.name).isNone)
        = none := by
    rw [find?_congr _ (fun g => !g.nullable && (valuesGet values2 g.name).isNone)
      schema (fun g hg => by rw [hpt g hg])]
    exact hfind2
  refine ⟨?_, ?_, ?_⟩
  · have hfind : (schema.find?
        (fun g => !g.nullable && (valuesGet values g.name).isNone)).isSome := by
      rw [List.find?_isSome]
      exact ⟨f, hmem, by simp [hnn, hmiss]⟩
    obtain ⟨g, hg⟩ := Option.isSome_iff_exists.mp hfind
    refine ⟨g.name, ?_⟩
    simp only [buildResultBatch, hee, Bool.false_eq_true, if_false, hg]
  · simp only [buildResultBatch, hee, Bool.false_eq_true, if_false, hfind2]
    rfl
  · simp only [buildResultBatch, hee, Bool.false_eq_true, if_false, hfind2,
      hfind3, Except.ok.injEq]
    rw [List.map_congr_left fun g hg => by rw [hpt g hg]]

theorem buildResultBatch_required_fields_witness :
    (∃ name, buildResultBatch [⟨"a", false, .float64⟩] [("b", 7)] "srv" none
        = .error (.missingField name ["b"]))
    ∧ (buildResultBatch [⟨"a", false, .float64⟩] [("a", 1)] "srv" none).isOk = true
    ∧ buildResultBatch [⟨"a", false, .float64⟩] [("a", 1), ("zzz", 9)] "srv" none
        = buildResultBatch [⟨"a", false, .float64⟩] [("a", 1)] "srv" none := by
  have h := buildResultBatch_required_fields [⟨"a", false, .float64⟩]
    [("b", 7)] [("a", 1)] [("zzz", 9)] "srv" none ⟨"a", false, .float64⟩
    (by decide) (by decide) (by decide)
    (by intro g hg; cases hg with
        | head => exact Or.inr (by decide)
        | tail _ h2 => cases h2)
    (by intro g hg; cases hg with
        | head => decide
        | tail _ h2 => cases h2)
  exact ⟨h.1, h.2.1, h.2.2⟩

/-! ## Client pipe exchange session (src/client/pipe.ts lines 166-263) -/

/-- JS values as far as schema inference sees them (typeof dispatch in
client/ipc.ts inferArrowType; payloads are irrelevant to inference). -/
inductive JsValue where
  | str (s : String)
  | boolean (b : Bool)
  | bigint (i : Int)
  | num (q : Int)
  | bytes (bs : Bytes)
  | null
deriving DecidableEq, Repr

/-- inferArrowType (client/ipc.ts lines 32-39): typeof dispatch with Utf8 as
the fallback; an absent sample (every row null/undefined in the column) also
falls back to Utf8. -/
def inferArrowType : Option JsValue → ArrowType
  | some (.str _) => .utf8
  | some (.boolean _) => .boolean
  | some (.bigint _) => .int64
  | some (.num _) => .float64
  | some (.bytes _) => .binary
  | some .null => .utf8
  | none => .utf8

/-- One input row: a JS object, insertion-ordered. -/
abbrev Row := List (String × JsValue)

def rowGet : Row → String → Option JsValue
  | [], _ => none
  | p :: rest, k => if p.1 = k then some p.2 else rowGet rest k

/-- First non-null sample of a column across the rows
(the `row[key] != null` scan in exchange). -/
def firstSample (input : List Row) (key : String) : Option JsValue :=
  match input with
  | [] => none
  | row :: rest =>
    match rowGet row key with
    | some v => if v = .null then firstSample rest key else some v
    | none => firstSample rest key

/-- Schema inference in PipeStreamSession.exchange (pipe.ts lines 196-205):
fields are the first row's keys in order, always nullable, typed from the
first non-null sample. -/
def inferInputSchema (input : List Row) : Schema :=
  ((input.headD []).map fun p => p.1).map fun k =>
    ⟨k, true, inferArrowType (firstSample input k)⟩

/-- Bytes written by the session onto the pipe, abstracted as messages. -/
inductive WireWrite where
  | schemaMsg (s : Schema)
  | batchMsg (schema : Schema) (rows : List Row)
  | eosMsg
deriving DecidableEq, Repr

/-- Mutable state of a PipeStreamSession relevant to exchange. -/
structure PipeSessionState where
  closed : Bool := false
  inputSchema : Option Schema := none
  writerOpen : Bool := false
  outputSchema : Schema := []
  wire : List WireWrite := []
deriving DecidableEq, Repr

/-- Message of the schema-lock ProtocolError (pipe.ts lines 215-220). -/
def schemaMismatchMsg (cached inferred : Schema) : String :=
  "Exchange input schema changed: expected ["
    ++ String.intercalate ", " (cached.map Field.name) ++ "] but got ["
    ++ String.intercalate ", " (inferred.map Field.name) ++ "]"

/-- Lazy writer open plus one batch write (pipe.ts lines 241-248): the first
write emits the IPC schema message, every write emits the batch. -/
def writeInputBatch (st : PipeSessionState) (schema : Schema)
    (rows : List Row) : PipeSessionState :=
  let st1 := if st.writerOpen then st
    else { st with writerOpen := true, wire := st.wire ++ [.schemaMsg schema] }
  { st1 with wire := st1.wire ++ [.batchMsg schema rows] }

/-- Send phase of PipeStreamSession.exchange (pipe.ts lines 166-249): closed
check, zero-row fallback schema, schema inference and the lock check against
the cached input schema — the ProtocolError is raised before the writer is
touched — then the batch write.  Returns the session state as left by the
call (a throw leaves it unchanged) and the call's outcome. -/
def PipeStreamSession.exchangeSend (st : PipeSessionState) (input : List Row) :
    PipeSessionState × Except JsError Unit :=
  if st.closed then (st, .error (mkRpcError "ProtocolError" "Stream session is closed"))
  else if input.isEmpty then
    (writeInputBatch st (st.inputSchema.getD st.outputSchema) [], .ok ())
  else
    let inferred := inferInputSchema input
    match st.inputSchema with
    | some cached =>
      if (cached.length != inferred.length)
          || (cached.zip inferred).any fun p => p.1.name != p.2.name then
        (st, .error (mkRpcError "ProtocolError" (schemaMismatchMsg cached inferred)))
      else (writeInputBatch st inferred input, .ok ())
    | none =>
      (writeInputBatch { st with inputSchema := some inferred } inferred input,
       .ok ())

/-- Equivalence of the source's lock check (field count plus per-index name
comparison) with plain inequality of the name lists: schemas are compared
exactly on field count, names and order — types are not part of the check. -/
theorem schemaNames_mismatch_iff (a : Schema) :
    ∀ b : Schema,
      ((a.length != b.length) || (a.zip b).any fun p => p.1.name != p.2.name) = true
        ↔ a.map Field.name ≠ b.map Field.name := by
  induction a with
  | nil =>
    intro b
    cases b with
    | nil => simp
    | cons y t => simp
  | cons x s ih =>
    intro b
    cases b with
    | nil => simp
    | cons y t =>
      simp only [List.length_cons, List.zip_cons_cons, List.any_cons,
        List.map_cons]
      rw [Bool.or_eq_true, Bool.or_eq_true, bne_iff_ne, bne_iff_ne]
      constructor
      · rintro (h | h | h)
        · intro he
          injection he with h1 h2
          have h3 := congrArg List.length h2
          simp only [List.length_map] at h3
          omega
        · intro he
          injection he with h1 h2
          exact h h1
        · intro he
          injection he with h1 h2
          exact (ih t).mp ((Bool.or_eq_true _ _).mpr (Or.inr h)) h2
      · intro hne
        by_cases h1 : x.name = y.name
        · have h2 : s.map Field.name ≠ t.map Field.name := fun he =>
            hne (by rw [h1, he])
          have h3 := (ih t).mpr h2
          rw [Bool.or_eq_true, bne_iff_ne] at h3
          rcases h3 with h | h
          · exact Or.inl (by omega)
          · exact Or.inr (Or.inr h)
        · exact Or.inr (Or.inl h1)

/-- C9: Exchange schema lock: on a pipe session whose input schema is locked
to S, an exchange whose inferred schema has a different name list (field
count, names or order) fails with a client-side ProtocolError, and the call
writes nothing to the wire — the session state is returned untouched. -/
theorem exchange_schema_lock (st : PipeSessionState) (input : List Row)
    (S : Schema)
    (hclosed : st.closed = false) (hcached : st.inputSchema = some S)
    (hne : input ≠ [])
    (hmis : S.map Field.name ≠ (inferInputSchema input).map Field.name) :
    PipeStreamSession.exchangeSend st input
      = (st, .error (mkRpcError "ProtocolError"
          (schemaMismatchMsg S (inferInputSchema input))))
    ∧ (PipeStreamSession.exchangeSend st input).1.wire = st.wire := by
  have hie : input.isEmpty = false := by
    cases input with
    | nil => exact absurd rfl hne
    | cons a t => rfl
  have hb : ((S.length != (inferInputSchema input).length)
      || (S.zip (inferInputSchema input)).any fun p => p.1.name != p.2.name)
        = true := (schemaNames_mismatch_iff S (inferInputSchema input)).mpr hmis
  have h1 : PipeStreamSession.exchangeSend st input
      = (st, .error (mkRpcError "ProtocolError"
          (schemaMismatchMsg S (inferInputSchema input)))) := by
    unfold PipeStreamSession.exchangeSend
    rw [if_neg (by simp [hclosed]), if_neg (by simp [hie])]
    simp only [hcached]
    rw [if_pos hb]
  exact ⟨h1, by rw [h1]⟩

theorem exchange_schema_lock_witness :
    PipeStreamSession.exchangeSend
        ⟨false, some [⟨"value", true, .float64⟩], true,
          [⟨"running_sum", true, .float64⟩], [.schemaMsg [⟨"value", true, .float64⟩]]⟩
        [[("other", .num 1)]]
      = (⟨false, some [⟨"value", true, .float64⟩], true,
          [⟨"running_sum", true, .float64⟩], [.schemaMsg [⟨"value", true, .float64⟩]]⟩,
         .error (mkRpcError "ProtocolError"
           (schemaMismatchMsg [⟨"value", true, .float64⟩]
             (inferInputSchema [[("other", .num 1)]])))) := by
  have h := exchange_schema_lock
    ⟨false, some [⟨"value", true, .float64⟩], true,
      [⟨"running_sum", true, .float64⟩], [.schemaMsg [⟨"value", true, .float64⟩]]⟩
    [[("other", .num 1)]] [⟨"value", true, .float64⟩]
    rfl rfl (by decide) (by decide)
  exact h.1

/-! ## Request parsing and the pipe serve loop
(src/wire/request.ts, src/server.ts) -/

/-- Parsed request (interface ParsedRequest, request.ts lines 10-17;
rawMetadata is the batch's own metadata and is not duplicated here). -/
structure ParsedRequest where
  methodName : String
  requestVersion : String
  requestId : Option String
  params : List (String × Cell)
deriving DecidableEq, Repr

/-- First cell of a named column (batch.getChildAt(i).get(0); the BigInt
safe-range narrowing is value-preserving on the abstract cells and elided). -/
def colGet (b : Batch) (k : String) : Cell :=
  match b.cols.find? fun p => p.1 = k with
  | some p => p.2.headD none
  | none => none

/-- parseRequest (request.ts lines 23-95): require the method key, require
request_version equal to "1", require one row when the parameter schema is
non-empty, then read one value per parameter field. -/
def parseRequest (schema : Schema) (b : Batch) : Except JsError ParsedRequest :=
  match metaGet b.metadata RPC_METHOD_KEY with
  | none => .error (mkRpcError "ProtocolError"
      ("Missing 'vgi_rpc.method' in request batch custom_metadata. "
        ++ "Each request batch must carry a 'vgi_rpc.method' key in its Arrow IPC custom_metadata "
        ++ "with the method name as a UTF-8 string."))
  | some methodName =>
    match metaGet b.metadata REQUEST_VERSION_KEY with
    | none => .error (mkVersionError
        ("Missing 'vgi_rpc.request_version' in request batch custom_metadata. "
          ++ "Set the 'vgi_rpc.request_version' custom_metadata value to '1'."))
    | some v =>
      if v ≠ REQUEST_VERSION then
        .error (mkVersionError ("Unsupported request version '" ++ v
          ++ "', expected '1'. "
          ++ "Set the 'vgi_rpc.request_version' custom_metadata value to '1'."))
      else if 0 < schema.length ∧ b.numRows ≠ 1 then
        .error (mkRpcError "ProtocolError"
          ("Expected 1 row in request batch, got " ++ toString b.numRows ++ ". "
            ++ "Each parameter is a column (not a row). The batch should have exactly 1 row."))
      else
        .ok ⟨methodName, v, metaGet b.metadata REQUEST_ID_KEY,
          schema.map fun f => (f.name, colGet b f.name)⟩

/-- Method classification from the registry. -/
inductive MethodKind where
  | unary
  | stream
deriving DecidableEq, Repr

/-- Server configuration relevant to serveOne: registry, prebuilt describe
response, server id. -/
structure ServeConfig where
  methods : List (String × MethodKind)
  describe : Option (Schema × Batch)
  serverId : String

/-- One request stream read off the pipe: its schema and batches. -/
structure RequestStream where
  schema : Schema
  batches : List Batch
deriving DecidableEq, Repr

/-- serveOne (server.ts lines 120-189): an empty request stream answers with
one zero-row ProtocolError EXCEPTION batch on the empty schema and returns
normally; otherwise the first batch is parsed (parse failures are answered
with an error batch, and rethrown only for error classes other than
RpcError/VersionError), `__describe__` is answered from the prebuilt batch,
unknown methods are answered with an error batch listing the registry, and
known methods are handed to the dispatcher (abstracted as `dispatchFn`; its
stream I/O is modelled separately by dispatchStream).  `.error` means the
exception reaches the run loop and ends it. -/
def serveOne (cfg : ServeConfig)
    (dispatchFn : String → MethodKind → ParsedRequest → List (Schema × List Batch))
    (req : RequestStream) : Except JsError (List (Schema × List Batch)) :=
  if req.batches.isEmpty then
    .ok [([], [buildErrorBatch []
      (mkRpcError "ProtocolError" "Request stream contains no batches")
      cfg.serverId none])]
  else
    let b := req.batches.headD default
    match parseRequest req.schema b with
    | .error e =>
      if e.cls = .versionError ∨ e.cls = .rpcError then
        .ok [([], [buildErrorBatch [] e cfg.serverId none])]
      else .error e
    | .ok parsed =>
      match cfg.describe with
      | some (ds, db) =>
        if parsed.methodName = DESCRIBE_METHOD_NAME then .ok [(ds, [db])]
        else serveDispatch cfg dispatchFn parsed
      | none => serveDispatch cfg dispatchFn parsed
where
  serveDispatch (cfg : ServeConfig)
      (dispatchFn : String → MethodKind → ParsedRequest → List (Schema × List Batch))
      (parsed : ParsedRequest) : Except JsError (List (Schema × List Batch)) :=
    match cfg.methods.find? fun p => p.1 = parsed.methodName with
    | none =>
      .ok [([], [buildErrorBatch []
        (mkError ("Unknown method: '" ++ parsed.methodName
          ++ "'. Available methods: ["
          ++ String.intercalate ", "
              ((cfg.methods.map fun p => p.1).mergeSort fun a b => decide (a ≤ b))
          ++ "]"))
        cfg.serverId parsed.requestId])]
    | some p => .ok (dispatchFn parsed.methodName p.2 parsed)

/-- run (server.ts lines 80-118): serve requests until EOF; a rethrown
dispatch error ends the loop. -/
def runServer (cfg : ServeConfig)
    (dispatchFn : String → MethodKind → ParsedRequest → List (Schema × List Batch)) :
    List RequestStream → List (Schema × List Batch)
  | [] => []
  | req :: rest =>
    match serveOne cfg dispatchFn req with
    | .ok written => written ++ runServer cfg dispatchFn rest
    | .error _ => []

/-- C10: a request stream with zero record batches is answered with a single
zero-row EXCEPTION error batch carrying the ProtocolError "Request stream
contains no batches" on an empty-schema stream, serveOne returns normally,
and the serve loop goes on to process the next request. -/
theorem serveOne_empty_request_stream (cfg : ServeConfig)
    (dispatchFn : String → MethodKind → ParsedRequest → List (Schema × List Batch))
    (schema : Schema) (rest : List RequestStream) :
    serveOne cfg dispatchFn ⟨schema, []⟩
      = .ok [([], [buildErrorBatch []
          (mkRpcError "ProtocolError" "Request stream contains no batches")
          cfg.serverId none])]
    ∧ (buildErrorBatch []
        (mkRpcError "ProtocolError" "Request stream contains no batches")
        cfg.serverId none).numRows = 0
    ∧ metaGet (buildErrorBatch []
        (mkRpcError "ProtocolError" "Request stream contains no batches")
        cfg.serverId none).metadata LOG_LEVEL_KEY = some "EXCEPTION"
    ∧ metaGet (buildErrorBatch []
        (mkRpcError "ProtocolError" "Request stream contains no batches")
        cfg.serverId none).metadata LOG_MESSAGE_KEY
        = some "RpcError: ProtocolError: Request stream contains no batches"
    ∧ runServer cfg dispatchFn (⟨schema, []⟩ :: rest)
      = ([], [buildErrorBatch []
          (mkRpcError "ProtocolError" "Request stream contains no batches")
          cfg.serverId none]) :: runServer cfg dispatchFn rest := by
  refine ⟨rfl, rfl, rfl, rfl, ?_⟩
  rfl

end VgiRpc
